import Mathlib

/-!
Verification of the gex2-tools VFX texture decoder (src/src/gex/vfx/mod.rs and
its caller src/src/main.rs), as a shallow embedding in Lean.

Modelling conventions:
* Bytes and unsigned 32-bit machine integers are `Nat` with explicit wrapping
  (`% 4294967296`); this follows release-mode Rust semantics, where arithmetic
  overflow wraps and an overlong shift amount is masked by the bit width.
* Rust `i16`/`i32` values are `Int`; the two's-complement wrap of an `i16`
  result is made explicit (`% 65536`, biased), and the arithmetic
  (sign-propagating) right shift is floor division, which on positive divisors
  is the Euclidean division `/` of `Int`.
* Operations that can panic in every build mode (out-of-bounds slice indexing,
  division or remainder by zero) return `Option`, with `none` as the panic.
  Indexing into the fixed-size arrays of a `Texture` (`brightness : [u8; 16]`,
  `rgb_0/rgb_1 : [Rgb; 4]`) is statically in range in Rust, so it is modelled
  with the total lookup `List.getD`.
* The container is parsed in Rust by `binrw`-derived readers; that generated
  code is not under src/, so the byte-stream reader below is modelled from the
  spec (section 6 layout), while the two `assert` clauses it checks are taken
  from the `brw` attributes in src/src/gex/vfx/mod.rs lines 12-14.
-/

/-- Model of `struct Rgb { r: i16, g: i16, b: i16 }` (vfx/mod.rs lines 40-47).
The fields hold two's-complement `i16` values, embedded as `Int`. -/
structure Rgb where
  r : Int
  g : Int
  b : Int
  deriving DecidableEq

/-- Model of `enum TextureFormat { RGB8A1 = 1, R7G6B5A1 = 11, ARGB4 = 12 }`
(vfx/mod.rs lines 31-38). -/
inductive TextureFormat where
  | RGB8A1
  | R7G6B5A1
  | ARGB4
  deriving DecidableEq

/-- Model of `struct Texture` (vfx/mod.rs lines 12-29).  The `aspect` field is
the source's `aspect_ratio`.  Unsigned 32-bit fields are `Nat`, byte vectors
are `List Nat`, and the fixed-size arrays are lists whose lengths are fixed by
parsing. -/
structure Texture where
  size_0 : Nat
  size_1 : Nat
  aspect : Nat
  format : TextureFormat
  unk_0 : List Nat
  brightness : List Nat
  rgb_0 : List Rgb
  rgb_1 : List Rgb
  unk_1 : List Nat
  data_count_0 : Nat
  data_count_1 : Nat
  data : List Nat
  deriving DecidableEq

/-- Model of `struct TextureProperties` (vfx/mod.rs lines 49-54). -/
structure TextureProperties where
  width : Nat
  height : Nat
  stride : Nat
  deriving DecidableEq

/-- Wrapping unsigned 32-bit subtraction, for the `u32` expression
`8 - texture.size_1` in release mode. -/
def u32_sub (a b : Nat) : Nat :=
  (a + 4294967296 - b % 4294967296) % 4294967296

/-- Model of `TextureProperties::from_texture` (vfx/mod.rs lines 57-77).
`let size = 1 << (8 - texture.size_1)` is a `u32` computation: the subtraction
wraps and the shift amount is masked to `% 32`; likewise the `>>` shift
amounts. -/
def TextureProperties.from_texture (t : Texture) : TextureProperties :=
  let size := (1 <<< (u32_sub 8 t.size_1 % 32)) % 4294967296
  let stride : Nat :=
    match t.format with
    | TextureFormat.R7G6B5A1 | TextureFormat.ARGB4 => 2
    | _ => 1
  if t.aspect > 3 then
    { width := size >>> ((t.aspect - 3) % 32), height := size, stride := stride }
  else
    { width := size, height := size >>> ((3 - t.aspect) % 32), stride := stride }

/-- Model of `TextureProperties::data_length` (vfx/mod.rs lines 83-85):
`(self.width * self.height * self.stride) as usize`, with both `u32`
multiplications wrapping. -/
def TextureProperties.data_length (pr : TextureProperties) : Nat :=
  (pr.width * pr.height % 4294967296) * pr.stride % 4294967296

/-- Channel extraction for one R7G6B5A1 pixel word (vfx/mod.rs lines 94-100),
pushed in the order r, g, b, a.  The `% 256` is the `as u8` cast. -/
def r7Pixel (p : Nat) : List Nat :=
  [((p &&& 0x7C00) >>> 7) % 256,
   ((p &&& 0x3E0) >>> 2) % 256,
   ((p &&& 0x1F) <<< 3) % 256,
   if p &&& 0x7FFF = 0 ∨ p &&& 0x8000 = 0 then 0 else 255]

/-- Channel extraction for one ARGB4 pixel word (vfx/mod.rs lines 116-119),
pushed in the order r, g, b, a.  The `% 256` is the `as u8` cast. -/
def argb4Pixel (p : Nat) : List Nat :=
  [((p &&& 0xF00) >>> 4) % 256,
   (p &&& 0xF0) % 256,
   ((p &&& 0xF) <<< 4) % 256,
   ((p &&& 0xF000) >>> 8) % 256]

/-- Loop body of `decompress_r7g6b5a1` at pixel `(x, y)` (vfx/mod.rs lines
92-104): read the little-endian 16-bit word at byte index
`2 * (y + x * height)` (a panic — `none` — when out of bounds) and extract the
channels. -/
def r7PixelAt (data : List Nat) (h x y : Nat) : Option (List Nat) :=
  match data[2 * (y + x * h)]?, data[2 * (y + x * h) + 1]? with
  | some lo, some hi => some (r7Pixel (lo ||| (hi <<< 8)))
  | _, _ => none

/-- Loop body of `decompress_argb4` at pixel `(x, y)` (vfx/mod.rs lines
114-123). -/
def argb4PixelAt (data : List Nat) (h x y : Nat) : Option (List Nat) :=
  match data[2 * (y + x * h)]?, data[2 * (y + x * h) + 1]? with
  | some lo, some hi => some (argb4Pixel (lo ||| (hi <<< 8)))
  | _, _ => none

/-- Two's-complement wrap of an integer into the `i16` range, used to model
`i16` results of arithmetic. -/
def toI16 (n : Int) : Int :=
  (n + 32768) % 65536 - 32768

/-- Model of the `i16` expression `(field << 7) >> 7` (vfx/mod.rs lines
145-152): the left shift wraps to 16 bits and the right shift of the signed
value is arithmetic, i.e. floor division by 128 (Euclidean `/` here, as the
divisor is positive). -/
def shl7_shr7 (v : Int) : Int :=
  toI16 (v * 128) / 128

/-- The `as u8` cast of an `i32`, as the low byte of the two's complement. -/
def intToU8 (v : Int) : Nat :=
  (v % 256).toNat

/-- Rust's `i32::clamp(lo, hi)`. -/
def clampI (v lo hi : Int) : Int :=
  min (max v lo) hi

/-- Default element for the statically-in-range `[Rgb; 4]` lookups. -/
def zeroRgb : Rgb :=
  { r := 0, g := 0, b := 0 }

/-- Channel computation for one RGB8A1 pixel byte `p` (vfx/mod.rs lines
140-164): brightness from the top nibble, two sign-extended palette
corrections, per-channel clamp to `[0, 255]`, and alpha from `(r | g | b)`. -/
def rgb8a1Pixel (brightness : List Nat) (rgb_0 rgb_1 : List Rgb) (p : Nat) : List Nat :=
  let l : Int := (brightness.getD (p >>> 4) 0 : Nat)
  let i0 := (p >>> 2) % 4
  let r0 := shl7_shr7 (rgb_0.getD i0 zeroRgb).r
  let g0 := shl7_shr7 (rgb_0.getD i0 zeroRgb).g
  let b0 := shl7_shr7 (rgb_0.getD i0 zeroRgb).b
  let i1 := p % 4
  let r1 := shl7_shr7 (rgb_1.getD i1 zeroRgb).r
  let g1 := shl7_shr7 (rgb_1.getD i1 zeroRgb).g
  let b1 := shl7_shr7 (rgb_1.getD i1 zeroRgb).b
  let r := intToU8 (clampI (l + r0 + r1) 0 255)
  let g := intToU8 (clampI (l + g0 + g1) 0 255)
  let b := intToU8 (clampI (l + b0 + b1) 0 255)
  let a := if r ||| g ||| b = 0 then 0 else 255
  [r, g, b, a]

/-- Loop body of the main RGB8A1 pass at pixel `(x, y)` (vfx/mod.rs lines
139-164): read the byte at index `y + x * height` and decode it. -/
def rgb8a1PixelAt (data brightness : List Nat) (rgb_0 rgb_1 : List Rgb) (h x y : Nat) :
    Option (List Nat) :=
  match data[y + x * h]? with
  | some p => some (rgb8a1Pixel brightness rgb_0 rgb_1 p)
  | none => none

/-- Option-valued traversal: the result list of running `f` on each element in
order, failing (panicking) as soon as one call fails. -/
def mapOpt {α β : Type} (f : α → Option β) : List α → Option (List β)
  | [] => some []
  | a :: l =>
    match f a, mapOpt f l with
    | some b, some bs => some (b :: bs)
    | _, _ => none

/-- Concatenation of a list of lists, in order. -/
def flattenL {α : Type} : List (List α) → List α
  | [] => []
  | l :: L => l ++ flattenL L

/-- The shared column-major fill loop of all three decompressors: for `x` in
`[0, width)`, for `y` in `[0, height)`, push the 4 bytes produced for pixel
`(x, y)`.  The bytes appear in the result exactly in traversal order. -/
def fillCM (pix : Nat → Nat → Option (List Nat)) (w h : Nat) : Option (List Nat) :=
  match mapOpt (fun x => mapOpt (fun y => pix x y) (List.range h)) (List.range w) with
  | some cols => some (flattenL (flattenL cols))
  | none => none

/-- Model of `decompress_r7g6b5a1` (vfx/mod.rs lines 88-108). -/
def decompress_r7g6b5a1 (data : List Nat) (pr : TextureProperties) : Option (List Nat) :=
  fillCM (r7PixelAt data pr.height) pr.width pr.height

/-- Model of `decompress_argb4` (vfx/mod.rs lines 110-127). -/
def decompress_argb4 (data : List Nat) (pr : TextureProperties) : Option (List Nat) :=
  fillCM (argb4PixelAt data pr.height) pr.width pr.height

/-- Writing one byte of the result buffer, `result[i] = v`; Rust panics when
`i` is out of bounds. -/
def setChecked (l : List Nat) (i v : Nat) : Option (List Nat) :=
  if i < l.length then some (l.set i v) else none

/-- Rust `a % b`, which panics when `b = 0`. -/
def checkedMod (a b : Nat) : Option Nat :=
  if b = 0 then none else some (a % b)

/-- Rust `a / b`, which panics when `b = 0`. -/
def checkedDiv (a b : Nat) : Option Nat :=
  if b = 0 then none else some (a / b)

/-- One iteration of the post-pass quirk loop of `decompress_rgb8a1`
(vfx/mod.rs lines 168-176): `x = i % width`, `y = i / height`,
`ri = 4 * (x + y * width)`, then the four sequential byte copies
`result[ri + k] = result[k]`. -/
def quirkBody (pr : TextureProperties) (b : List Nat) (i : Nat) : Option (List Nat) := do
  let x ← checkedMod i pr.width
  let y ← checkedDiv i pr.height
  let ri := 4 * (x + y * pr.width)
  let v0 ← b[0]?
  let b1 ← setChecked b ri v0
  let v1 ← b1[1]?
  let b2 ← setChecked b1 (ri + 1) v1
  let v2 ← b2[2]?
  let b3 ← setChecked b2 (ri + 2) v2
  let v3 ← b3[3]?
  setChecked b3 (ri + 3) v3

/-- The quirk loop `for i in 1..data.len().min(3)`, threading the buffer. -/
def quirkLoop (pr : TextureProperties) : List Nat → List Nat → Option (List Nat)
  | buf, [] => some buf
  | buf, i :: is =>
    match quirkBody pr buf i with
    | some b => quirkLoop pr b is
    | none => none

/-- Model of `decompress_rgb8a1` (vfx/mod.rs lines 129-178): the main
column-major pass followed by the encoder-bug workaround pass over
`1..data.len().min(3)`. -/
def decompress_rgb8a1 (data : List Nat) (pr : TextureProperties)
    (brightness : List Nat) (rgb_0 rgb_1 : List Rgb) : Option (List Nat) :=
  match fillCM (rgb8a1PixelAt data brightness rgb_0 rgb_1 pr.height) pr.width pr.height with
  | some result => quirkLoop pr result (List.range' 1 (min data.length 3 - 1))
  | none => none

/-- Model of `decompress` (vfx/mod.rs lines 180-197): derive the geometry,
fail with the length-mismatch error when `texture.data.len()` differs from the
expected length, otherwise dispatch on the format.  `none` is a panic,
`some (Except.error ())` is the `Err(())` return. -/
def decompress (t : Texture) : Option (Except Unit (List Nat)) :=
  let properties := TextureProperties.from_texture t
  if t.data.length ≠ properties.data_length then
    some (Except.error ())
  else
    match t.format with
    | TextureFormat.R7G6B5A1 => (decompress_r7g6b5a1 t.data properties).map Except.ok
    | TextureFormat.ARGB4 => (decompress_argb4 t.data properties).map Except.ok
    | TextureFormat.RGB8A1 =>
      (decompress_rgb8a1 t.data properties t.brightness t.rgb_0 t.rgb_1).map Except.ok

/-- Modelled from the spec: the `binrw`-generated little-endian byte reader
for one `u8` (the generated reader code is not under src/). -/
def readU8 : List Nat → Option (Nat × List Nat)
  | b :: s => some (b, s)
  | [] => none

/-- Modelled from the spec: little-endian `u16` reader. -/
def readU16 : List Nat → Option (Nat × List Nat)
  | b0 :: b1 :: s => some (b0 ||| (b1 <<< 8), s)
  | _ => none

/-- Modelled from the spec: little-endian `u32` reader. -/
def readU32 : List Nat → Option (Nat × List Nat)
  | b0 :: b1 :: b2 :: b3 :: s =>
    some (b0 ||| (b1 <<< 8) ||| (b2 <<< 16) ||| (b3 <<< 24), s)
  | _ => none

/-- Interpretation of a `u16` bit pattern as a two's-complement `i16`. -/
def u16AsI16 (n : Nat) : Int :=
  if n < 32768 then (n : Int) else (n : Int) - 65536

/-- Modelled from the spec: little-endian `i16` reader. -/
def readI16 (s : List Nat) : Option (Int × List Nat) :=
  match readU16 s with
  | some (v, s) => some (u16AsI16 v, s)
  | none => none

/-- Modelled from the spec: a fixed count of sequential reads. -/
def readCount {α : Type} (rd : List Nat → Option (α × List Nat)) :
    Nat → List Nat → Option (List α × List Nat)
  | 0, s => some ([], s)
  | n + 1, s =>
    match rd s with
    | some (a, s) =>
      match readCount rd n s with
      | some (as, s) => some (a :: as, s)
      | none => none
    | none => none

/-- Modelled from the spec: the `TextureFormat` decode; the raw `u32` must be
one of 1, 11, 12 (vfx/mod.rs lines 31-38), anything else is a parse error. -/
def readFormat (s : List Nat) : Option (TextureFormat × List Nat) :=
  match readU32 s with
  | some (1, s) => some (TextureFormat.RGB8A1, s)
  | some (11, s) => some (TextureFormat.R7G6B5A1, s)
  | some (12, s) => some (TextureFormat.ARGB4, s)
  | _ => none

/-- Modelled from the spec: one `Rgb` record, three little-endian `i16`s. -/
def readRgb (s : List Nat) : Option (Rgb × List Nat) := do
  let (r, s) ← readI16 s
  let (g, s) ← readI16 s
  let (b, s) ← readI16 s
  some ({ r := r, g := g, b := b }, s)

/-- Modelled from the spec: one `Texture` record in the exact field order of
the section 6 layout; the payload is `data_count_0` bytes.  The two `brw`
`assert` clauses of the source (`size_0 == size_1` and
`data_count_0 == data_count_1`, vfx/mod.rs line 14) are checked after the
record is read; violating either is a parse error. -/
def readTexture (s : List Nat) : Option (Texture × List Nat) := do
  let (size_0, s) ← readU32 s
  let (size_1, s) ← readU32 s
  let (aspect, s) ← readU32 s
  let (format, s) ← readFormat s
  let (unk_0, s) ← readCount readU16 2 s
  let (brightness, s) ← readCount readU8 16 s
  let (rgb_0, s) ← readCount readRgb 4 s
  let (rgb_1, s) ← readCount readRgb 4 s
  let (unk_1, s) ← readCount readU16 24 s
  let (data_count_0, s) ← readU32 s
  let (data_count_1, s) ← readU32 s
  let (data, s) ← readCount readU8 data_count_0 s
  if size_0 = size_1 ∧ data_count_0 = data_count_1 then
    some (⟨size_0, size_1, aspect, format, unk_0, brightness, rgb_0, rgb_1, unk_1,
           data_count_0, data_count_1, data⟩, s)
  else
    none

/-- Model of `struct File` (vfx/mod.rs lines 6-10), named `VfxFile` here. -/
structure VfxFile where
  texture_count : Nat
  textures : List Texture
  deriving DecidableEq

/-- Modelled from the spec: the container, a `u32` count followed by exactly
that many texture records. -/
def readVfxFile (s : List Nat) : Option (VfxFile × List Nat) := do
  let (texture_count, s) ← readU32 s
  let (textures, s) ← readCount readTexture texture_count s
  some ({ texture_count := texture_count, textures := textures }, s)

/-- Convenience constructor for concrete test textures: duplicated size and
count fields are consistent, `unk` fields are zero. -/
def mkTex (s a : Nat) (f : TextureFormat) (br : List Nat) (r0 r1 : List Rgb)
    (d : List Nat) : Texture :=
  ⟨s, s, a, f, [0, 0], br, r0, r1, List.replicate 24 0, d.length, d.length, d⟩

/-- All-zero brightness table. -/
def zbr : List Nat := List.replicate 16 0

/-- All-zero palette. -/
def zrgb : List Rgb := List.replicate 4 zeroRgb

/-- RGB8A1 texture with width 1, height 4 (size code 6, aspect code 5) whose
pixel 1 decodes differently from pixel 0: brightness level 1 is 255 and the
data bytes at positions 1 and 2 select it. -/
def c1Tex : Texture :=
  mkTex 6 5 TextureFormat.RGB8A1 ([0, 255] ++ List.replicate 14 0) zrgb zrgb
    [0x00, 0x10, 0x10, 0x00]

/-- The buffer `decompress` returns for `c1Tex`. -/
def c1Buf : List Nat :=
  [0, 0, 0, 0, 255, 255, 255, 255, 255, 255, 255, 255, 0, 0, 0, 0]

/-- Texture with `size_1 = 9`: the `u32` computation `1 << (8 - 9)` wraps to a
masked shift by 31. -/
def c2aTex : Texture := mkTex 9 3 TextureFormat.RGB8A1 zbr zrgb zrgb []

/-- RGB8A1 texture with width 2, height 1 (size code 7, aspect code 2) and
matching data length 2: the quirk pass computes `y = 1 / height = 1` and
writes out of bounds. -/
def c2bTex : Texture := mkTex 7 2 TextureFormat.RGB8A1 zbr zrgb zrgb [0, 0]

/-- R7G6B5A1 texture, 2 by 2, whose input word at column-major position 1
(pixel (0,1)) is 0x001F while the word of pixel (1,0) is 0. -/
def c3Tex : Texture :=
  mkTex 7 3 TextureFormat.R7G6B5A1 zbr zrgb zrgb [0, 0, 0x1F, 0, 0, 0, 0, 0]

/-- The buffer `decompress` returns for `c3Tex`. -/
def c3Buf : List Nat :=
  [0, 0, 0, 0, 0, 0, 248, 0, 0, 0, 0, 0, 0, 0, 0, 0]

/-- A 1-by-1 R7G6B5A1 texture with matching data. -/
def tex1x1R7 : Texture := mkTex 8 3 TextureFormat.R7G6B5A1 zbr zrgb zrgb [0, 0]

/-- A 1-by-1 ARGB4 texture whose single word is 0xF123. -/
def tex1x1A4 : Texture := mkTex 8 3 TextureFormat.ARGB4 zbr zrgb zrgb [0x23, 0xF1]

/-- A 2-by-2 RGB8A1 texture with matching data. -/
def tex2x2R8 : Texture :=
  mkTex 7 3 TextureFormat.RGB8A1 ([7] ++ List.replicate 15 0) zrgb zrgb [0, 1, 2, 3]

/-- A texture whose data length 0 disagrees with the expected length 1. -/
def texBadLen : Texture := mkTex 8 3 TextureFormat.RGB8A1 zbr zrgb zrgb []

/-- Texture for the geometry example `size_1 = 8`, `aspect_ratio = 3`. -/
def cT5a : Texture := mkTex 8 3 TextureFormat.RGB8A1 zbr zrgb zrgb []

/-- Texture for the geometry example `size_1 = 5`, `aspect_ratio = 5`. -/
def cT5b : Texture := mkTex 5 5 TextureFormat.RGB8A1 zbr zrgb zrgb []

/-- A well-formed 140-byte texture record stream: all header fields zero
except `format = 1` (RGB8A1), with an empty payload. -/
def goodStream : List Nat :=
  [0, 0, 0, 0] ++ [0, 0, 0, 0] ++ [0, 0, 0, 0] ++ [1, 0, 0, 0] ++ List.replicate 124 0

/-- The texture record parsed from `goodStream`. -/
def goodTex : Texture := mkTex 0 0 TextureFormat.RGB8A1 zbr zrgb zrgb []

/-- The same stream with `size_0 = 1` but `size_1 = 0`: the duplicate-field
invariant is violated. -/
def badStream : List Nat :=
  [1, 0, 0, 0] ++ [0, 0, 0, 0] ++ [0, 0, 0, 0] ++ [1, 0, 0, 0] ++ List.replicate 124 0

/-- The buffer `decompress` returns for `tex2x2R8`. -/
def tex2x2Buf : List Nat :=
  [7, 7, 7, 255, 7, 7, 7, 255, 7, 7, 7, 255, 7, 7, 7, 255]

theorem mapOpt_length {α β : Type} {f : α → Option β} :
    ∀ {l : List α} {r : List β}, mapOpt f l = some r → r.length = l.length := by
  intro l
  induction l with
  | nil => intro r h; cases h; rfl
  | cons a l ih =>
    intro r h
    unfold mapOpt at h
    cases hfa : f a with
    | none => rw [hfa] at h; cases h
    | some b =>
      rw [hfa] at h
      cases hrec : mapOpt f l with
      | none => rw [hrec] at h; cases h
      | some bs =>
        rw [hrec] at h
        cases h
        simp [List.length_cons, ih hrec]

theorem mapOpt_get {α β : Type} {f : α → Option β} :
    ∀ {l : List α} {r : List β}, mapOpt f l = some r →
      ∀ {i : Nat} {a : α}, l[i]? = some a → r[i]? = f a := by
  intro l
  induction l with
  | nil => intro r _ i a ha; cases ha
  | cons a0 l ih =>
    intro r h i a ha
    unfold mapOpt at h
    cases hfa : f a0 with
    | none => rw [hfa] at h; cases h
    | some b =>
      rw [hfa] at h
      cases hrec : mapOpt f l with
      | none => rw [hrec] at h; cases h
      | some bs =>
        rw [hrec] at h
        cases h
        cases i with
        | zero =>
          rw [List.getElem?_cons_zero] at ha
          cases ha
          simpa using hfa.symm
        | succ i =>
          simp only [List.getElem?_cons_succ] at ha ⊢
          exact ih hrec ha

theorem mapOpt_isSome {α β : Type} {f : α → Option β} :
    ∀ {l : List α}, (∀ a ∈ l, (f a).isSome) → (mapOpt f l).isSome := by
  intro l
  induction l with
  | nil => intro _; rfl
  | cons a l ih =>
    intro hall
    have ha : (f a).isSome := hall a (List.mem_cons_self a l)
    have hl : (mapOpt f l).isSome := ih fun b hb => hall b (List.mem_cons_of_mem a hb)
    unfold mapOpt
    cases hfa : f a with
    | none => rw [hfa] at ha; cases ha
    | some b =>
      cases hrec : mapOpt f l with
      | none => rw [hrec] at hl; cases hl
      | some bs => rfl

theorem mapOpt_mem {α β : Type} {f : α → Option β} :
    ∀ {l : List α} {r : List β}, mapOpt f l = some r →
      ∀ {b : β}, b ∈ r → ∃ a ∈ l, f a = some b := by
  intro l
  induction l with
  | nil => intro r h b hb; cases h; cases hb
  | cons a0 l ih =>
    intro r h b hb
    unfold mapOpt at h
    cases hfa : f a0 with
    | none => rw [hfa] at h; cases h
    | some b0 =>
      rw [hfa] at h
      cases hrec : mapOpt f l with
      | none => rw [hrec] at h; cases h
      | some bs =>
        rw [hrec] at h
        cases h
        rcases List.mem_cons.mp hb with hb0 | hbs
        · exact ⟨a0, List.mem_cons_self a0 l, hb0 ▸ hfa⟩
        · obtain ⟨a, hal, hfa2⟩ := ih hrec hbs
          exact ⟨a, List.mem_cons_of_mem a0 hal, hfa2⟩

theorem flattenL_length {α : Type} {n : Nat} :
    ∀ {L : List (List α)}, (∀ l ∈ L, l.length = n) →
      (flattenL L).length = n * L.length := by
  intro L
  induction L with
  | nil => intro _; simp [flattenL]
  | cons l L ih =>
    intro hall
    have hl : l.length = n := hall l (List.mem_cons_self l L)
    have hrest := ih fun m hm => hall m (List.mem_cons_of_mem l hm)
    simp [flattenL, List.length_append, hl, hrest, Nat.mul_succ, Nat.add_comm]

theorem flattenL_mem {α : Type} :
    ∀ {L : List (List α)} {b : α}, b ∈ flattenL L → ∃ l ∈ L, b ∈ l := by
  intro L
  induction L with
  | nil => intro b hb; cases hb
  | cons l L ih =>
    intro b hb
    rcases List.mem_append.mp hb with h | h
    · exact ⟨l, List.mem_cons_self l L, h⟩
    · obtain ⟨m, hm, hbm⟩ := ih h
      exact ⟨m, List.mem_cons_of_mem l hm, hbm⟩

theorem flattenL_get {α : Type} {n : Nat} :
    ∀ {L : List (List α)} {k : Nat} {l : List α}, (∀ m ∈ L, m.length = n) →
      L[k]? = some l → ∀ {j : Nat}, j < n → (flattenL L)[n * k + j]? = l[j]? := by
  intro L
  induction L with
  | nil => intro k l _ hk; cases hk
  | cons l0 L ih =>
    intro k l hall hk j hj
    have hl0 : l0.length = n := hall l0 (List.mem_cons_self l0 L)
    cases k with
    | zero =>
      rw [List.getElem?_cons_zero] at hk
      cases hk
      simp only [flattenL, Nat.mul_zero, Nat.zero_add]
      exact List.getElem?_append_left (by omega)
    | succ k =>
      rw [List.getElem?_cons_succ] at hk
      simp only [flattenL]
      have hge : l0.length ≤ n * (k + 1) + j := by
        rw [hl0, Nat.mul_succ]
        omega
      rw [List.getElem?_append_right hge]
      have harith : n * (k + 1) + j - l0.length = n * k + j := by
        rw [hl0, Nat.mul_succ]
        omega
      rw [harith]
      exact ih (fun m hm => hall m (List.mem_cons_of_mem l0 hm)) hk hj

theorem cm_index_lt {x w y h : Nat} (hx : x < w) (hy : y < h) : y + x * h < w * h := by
  calc y + x * h < h + x * h := by omega
    _ = (x + 1) * h := by ring
    _ ≤ w * h := Nat.mul_le_mul_right h (by omega)

theorem fillCM_isSome {pix : Nat → Nat → Option (List Nat)} {w h : Nat}
    (hp : ∀ x, x < w → ∀ y, y < h → (pix x y).isSome) :
    ∃ buf, fillCM pix w h = some buf := by
  have houter : (mapOpt (fun x => mapOpt (fun y => pix x y) (List.range h))
      (List.range w)).isSome :=
    mapOpt_isSome fun x hx =>
      mapOpt_isSome fun y hy => hp x (List.mem_range.mp hx) y (List.mem_range.mp hy)
  unfold fillCM
  cases hcols : mapOpt (fun x => mapOpt (fun y => pix x y) (List.range h))
      (List.range w) with
  | none => rw [hcols] at houter; cases houter
  | some cols => exact ⟨flattenL (flattenL cols), rfl⟩

theorem fillCM_cols_length {pix : Nat → Nat → Option (List Nat)} {h : Nat}
    {cols : List (List (List Nat))} {w : Nat}
    (hcols : mapOpt (fun x => mapOpt (fun y => pix x y) (List.range h))
      (List.range w) = some cols) :
    ∀ c ∈ cols, c.length = h := by
  intro c hc
  obtain ⟨x, _, hcx⟩ := mapOpt_mem hcols hc
  have := mapOpt_length hcx
  simpa using this

theorem fillCM_pix_length {pix : Nat → Nat → Option (List Nat)} {h : Nat}
    {cols : List (List (List Nat))} {w : Nat}
    (hcols : mapOpt (fun x => mapOpt (fun y => pix x y) (List.range h))
      (List.range w) = some cols)
    (h4 : ∀ x y r, pix x y = some r → r.length = 4) :
    ∀ p ∈ flattenL cols, p.length = 4 := by
  intro p hp
  obtain ⟨c, hc, hpc⟩ := flattenL_mem hp
  obtain ⟨x, _, hcx⟩ := mapOpt_mem hcols hc
  obtain ⟨y, _, hpy⟩ := mapOpt_mem hcx hpc
  exact h4 x y p hpy

theorem fillCM_length {pix : Nat → Nat → Option (List Nat)} {w h : Nat} {buf : List Nat}
    (hb : fillCM pix w h = some buf)
    (h4 : ∀ x y r, pix x y = some r → r.length = 4) :
    buf.length = 4 * (h * w) := by
  unfold fillCM at hb
  cases hcols : mapOpt (fun x => mapOpt (fun y => pix x y) (List.range h))
      (List.range w) with
  | none => rw [hcols] at hb; cases hb
  | some cols =>
    rw [hcols] at hb
    cases hb
    have h1 : (flattenL cols).length = h * cols.length :=
      flattenL_length (fillCM_cols_length hcols)
    have h2 : (flattenL (flattenL cols)).length = 4 * (flattenL cols).length :=
      flattenL_length (fillCM_pix_length hcols h4)
    have h3 : cols.length = w := by
      have := mapOpt_length hcols
      simpa using this
    rw [h2, h1, h3]

theorem fillCM_get {pix : Nat → Nat → Option (List Nat)} {w h : Nat} {buf : List Nat}
    {x y : Nat} {r : List Nat}
    (hb : fillCM pix w h = some buf)
    (h4 : ∀ x y r, pix x y = some r → r.length = 4)
    (hx : x < w) (hy : y < h) (hp : pix x y = some r) {j : Nat} (hj : j < 4) :
    buf[4 * (y + x * h) + j]? = r[j]? := by
  unfold fillCM at hb
  cases hcols : mapOpt (fun x => mapOpt (fun y => pix x y) (List.range h))
      (List.range w) with
  | none => rw [hcols] at hb; cases hb
  | some cols =>
    rw [hcols] at hb
    cases hb
    have hcx : cols[x]? = mapOpt (fun y => pix x y) (List.range h) :=
      mapOpt_get hcols (by simp [List.getElem?_range, hx])
    cases hinner : mapOpt (fun y => pix x y) (List.range h) with
    | none =>
      exfalso
      rw [hinner] at hcx
      have hxlen : x < cols.length := by
        have := mapOpt_length hcols
        simpa [this] using hx
      rw [List.getElem?_eq_getElem hxlen] at hcx
      cases hcx
    | some colx =>
      rw [hinner] at hcx
      have hcolxy : colx[y]? = some r := by
        have := mapOpt_get hinner (i := y) (a := y) (by simp [List.getElem?_range, hy])
        rw [this, hp]
      have hmid : (flattenL cols)[h * x + y]? = some r := by
        rw [flattenL_get (fillCM_cols_length hcols) hcx hy, hcolxy]
      have hfin : (flattenL (flattenL cols))[4 * (h * x + y) + j]? = r[j]? :=
        flattenL_get (fillCM_pix_length hcols h4) hmid hj
      have harith : 4 * (y + x * h) = 4 * (h * x + y) := by ring
      rw [harith]
      exact hfin

theorem list_set_self {α : Type} :
    ∀ {l : List α} {i : Nat} {v : α}, l[i]? = some v → l.set i v = l := by
  intro l
  induction l with
  | nil => intro i v h; cases h
  | cons a l ih =>
    intro i v h
    cases i with
    | zero =>
      rw [List.getElem?_cons_zero] at h
      cases h
      rfl
    | succ i =>
      rw [List.getElem?_cons_succ] at h
      simp [List.set_cons_succ, ih h]

theorem checkedMod_eq_some {a b x : Nat} :
    checkedMod a b = some x ↔ b ≠ 0 ∧ x = a % b := by
  unfold checkedMod
  split
  · simp_all
  · simp_all [eq_comm]

theorem checkedDiv_eq_some {a b x : Nat} :
    checkedDiv a b = some x ↔ b ≠ 0 ∧ x = a / b := by
  unfold checkedDiv
  split
  · simp_all
  · simp_all [eq_comm]

theorem setChecked_eq_some {l : List Nat} {i v : Nat} {r : List Nat} :
    setChecked l i v = some r ↔ i < l.length ∧ r = l.set i v := by
  unfold setChecked
  split
  · simp_all [eq_comm]
  · simp_all

theorem quirkBody_inv {pr : TextureProperties} {b : List Nat} {i : Nat} {b2 : List Nat}
    (h : quirkBody pr b i = some b2) :
    pr.width ≠ 0 ∧ pr.height ≠ 0 ∧
      4 * (i % pr.width + i / pr.height * pr.width) + 3 < b.length ∧
      ∃ v0 v1 v2 v3,
        b[0]? = some v0 ∧ b[1]? = some v1 ∧ b[2]? = some v2 ∧ b[3]? = some v3 ∧
        b2 = (((b.set (4 * (i % pr.width + i / pr.height * pr.width)) v0).set
          (4 * (i % pr.width + i / pr.height * pr.width) + 1) v1).set
          (4 * (i % pr.width + i / pr.height * pr.width) + 2) v2).set
          (4 * (i % pr.width + i / pr.height * pr.width) + 3) v3 := by
  simp only [quirkBody, Option.bind_eq_some, Option.pure_def, bind, Option.bind_eq_some] at h
  obtain ⟨x, hx, h⟩ := h
  obtain ⟨hw, hxv⟩ := checkedMod_eq_some.mp hx
  obtain ⟨y, hy, h⟩ := h
  obtain ⟨hh, hyv⟩ := checkedDiv_eq_some.mp hy
  obtain ⟨v0, hv0, h⟩ := h
  obtain ⟨b1, hb1, h⟩ := h
  obtain ⟨hri1, hb1v⟩ := setChecked_eq_some.mp hb1
  obtain ⟨v1, hv1, h⟩ := h
  obtain ⟨bb2, hb2, h⟩ := h
  obtain ⟨hri2, hb2v⟩ := setChecked_eq_some.mp hb2
  obtain ⟨v2, hv2, h⟩ := h
  obtain ⟨b3, hb3, h⟩ := h
  obtain ⟨hri3, hb3v⟩ := setChecked_eq_some.mp hb3
  obtain ⟨v3, hv3, h⟩ := h
  obtain ⟨hri4, hb4v⟩ := setChecked_eq_some.mp h
  subst hxv hyv hb1v hb2v hb3v hb4v
  set ri := 4 * (i % pr.width + i / pr.height * pr.width) with hri
  have hne1 : ri ≠ 1 := by omega
  have hne2 : ri + 1 ≠ 2 ∧ ri ≠ 2 := by omega
  have hne3 : ri + 2 ≠ 3 ∧ ri + 1 ≠ 3 ∧ ri ≠ 3 := by omega
  have hlen : ri + 3 < b.length := by
    simp only [List.length_set] at hri4
    exact hri4
  refine ⟨hw, hh, hlen, v0, v1, v2, v3, hv0, ?_, ?_, ?_, rfl⟩
  · rw [List.getElem?_set_ne hne1] at hv1
    exact hv1
  · rw [List.getElem?_set_ne hne2.1, List.getElem?_set_ne hne2.2] at hv2
    exact hv2
  · rw [List.getElem?_set_ne hne3.1, List.getElem?_set_ne hne3.2.1,
      List.getElem?_set_ne hne3.2.2] at hv3
    exact hv3

theorem quirkBody_first4 {pr : TextureProperties} {b : List Nat} {i : Nat} {b2 : List Nat}
    (h : quirkBody pr b i = some b2) :
    b2.length = b.length ∧ ∀ j, j < 4 → b2[j]? = b[j]? := by
  obtain ⟨hw, hh, hlen, v0, v1, v2, v3, hv0, hv1, hv2, hv3, hb2⟩ := quirkBody_inv h
  subst hb2
  constructor
  · simp [List.length_set]
  · intro j hj
    by_cases hk : i % pr.width + i / pr.height * pr.width = 0
    · simp only [hk, Nat.mul_zero, Nat.zero_add]
      rw [list_set_self hv0, list_set_self hv1, list_set_self hv2, list_set_self hv3]
    · have hk4 : 4 ≤ 4 * (i % pr.width + i / pr.height * pr.width) := by omega
      rw [List.getElem?_set_ne (by omega), List.getElem?_set_ne (by omega),
        List.getElem?_set_ne (by omega), List.getElem?_set_ne (by omega)]

theorem quirkBody_some {pr : TextureProperties} {b : List Nat} {i : Nat}
    (hw : pr.width ≠ 0) (hh : pr.height ≠ 0)
    (hri : 4 * (i % pr.width + i / pr.height * pr.width) + 3 < b.length) :
    ∃ b2, quirkBody pr b i = some b2 ∧ b2.length = b.length := by
  have e1 : checkedMod i pr.width = some (i % pr.width) := checkedMod_eq_some.mpr ⟨hw, rfl⟩
  have e2 : checkedDiv i pr.height = some (i / pr.height) := checkedDiv_eq_some.mpr ⟨hh, rfl⟩
  have h0lt : 0 < b.length := by omega
  suffices hs : (quirkBody pr b i).isSome by
    cases hq : quirkBody pr b i with
    | none => rw [hq] at hs; cases hs
    | some b2 => exact ⟨b2, rfl, (quirkBody_first4 hq).1⟩
  unfold quirkBody
  rw [e1]
  simp only [Option.bind_eq_bind, Option.some_bind]
  rw [e2]
  simp only [Option.some_bind]
  rw [List.getElem?_eq_getElem h0lt]
  simp only [Option.some_bind]
  rw [show setChecked b (4 * (i % pr.width + i / pr.height * pr.width)) b[0] =
    some (b.set (4 * (i % pr.width + i / pr.height * pr.width)) b[0]) from
    setChecked_eq_some.mpr ⟨by omega, rfl⟩]
  simp only [Option.some_bind]
  have l1 : (b.set (4 * (i % pr.width + i / pr.height * pr.width)) b[0]).length =
      b.length := List.length_set ..
  rw [List.getElem?_eq_getElem (by rw [l1]; omega)]
  simp only [Option.some_bind]
  rw [show ∀ v, setChecked (b.set (4 * (i % pr.width + i / pr.height * pr.width)) b[0])
    (4 * (i % pr.width + i / pr.height * pr.width) + 1) v =
    some ((b.set (4 * (i % pr.width + i / pr.height * pr.width)) b[0]).set
      (4 * (i % pr.width + i / pr.height * pr.width) + 1) v) from fun v =>
    setChecked_eq_some.mpr ⟨by rw [l1]; omega, rfl⟩]
  simp only [Option.some_bind]
  have l2 : ∀ (m : List Nat) (v : Nat), (m.set (4 * (i % pr.width + i / pr.height *
      pr.width) + 1) v).length = m.length := fun m v => List.length_set ..
  rw [List.getElem?_eq_getElem (by rw [l2, l1]; omega)]
  simp only [Option.some_bind]
  rw [show ∀ (m : List Nat) v, m.length = b.length → setChecked m
    (4 * (i % pr.width + i / pr.height * pr.width) + 2) v =
    some (m.set (4 * (i % pr.width + i / pr.height * pr.width) + 2) v) from fun m v hm =>
    setChecked_eq_some.mpr ⟨by rw [hm]; omega, rfl⟩]
  · simp only [Option.some_bind]
    have l3 : ∀ (m : List Nat) (v : Nat), (m.set (4 * (i % pr.width + i / pr.height *
        pr.width) + 2) v).length = m.length := fun m v => List.length_set ..
    rw [List.getElem?_eq_getElem (by rw [l3, l2, l1]; omega)]
    simp only [Option.some_bind]
    rw [show ∀ (m : List Nat) v, m.length = b.length → setChecked m
      (4 * (i % pr.width + i / pr.height * pr.width) + 3) v =
      some (m.set (4 * (i % pr.width + i / pr.height * pr.width) + 3) v) from
      fun m v hm => setChecked_eq_some.mpr ⟨by rw [hm]; omega, rfl⟩]
    · rfl
    · rw [l3, l2, l1]
  · rw [l2, l1]

theorem quirkLoop_first4 {pr : TextureProperties} :
    ∀ {is : List Nat} {b b2 : List Nat}, quirkLoop pr b is = some b2 →
      b2.length = b.length ∧ ∀ j, j < 4 → b2[j]? = b[j]? := by
  intro is
  induction is with
  | nil =>
    intro b b2 h
    cases h
    exact ⟨rfl, fun j _ => rfl⟩
  | cons i is ih =>
    intro b b2 h
    unfold quirkLoop at h
    cases hq : quirkBody pr b i with
    | none => rw [hq] at h; cases h
    | some b1 =>
      rw [hq] at h
      obtain ⟨hl1, hp1⟩ := quirkBody_first4 hq
      obtain ⟨hl2, hp2⟩ := ih h
      exact ⟨hl2.trans hl1, fun j hj => (hp2 j hj).trans (hp1 j hj)⟩

theorem decompress_rgb8a1_inv {data : List Nat} {pr : TextureProperties}
    {br : List Nat} {r0 r1 : List Rgb} {buf : List Nat}
    (h : decompress_rgb8a1 data pr br r0 r1 = some buf) :
    ∃ main, fillCM (rgb8a1PixelAt data br r0 r1 pr.height) pr.width pr.height = some main ∧
      quirkLoop pr main (List.range' 1 (min data.length 3 - 1)) = some buf := by
  unfold decompress_rgb8a1 at h
  cases hm : fillCM (rgb8a1PixelAt data br r0 r1 pr.height) pr.width pr.height with
  | none => rw [hm] at h; cases h
  | some main =>
    rw [hm] at h
    exact ⟨main, rfl, h⟩

theorem decompress_ok_len {t : Texture} {buf : List Nat}
    (h : decompress t = some (Except.ok buf)) :
    t.data.length = (TextureProperties.from_texture t).data_length := by
  by_cases hc : t.data.length = (TextureProperties.from_texture t).data_length
  · exact hc
  · exfalso
    simp only [decompress, if_pos hc] at h
    cases h

theorem decompress_fmt_inv {t : Texture} {buf : List Nat}
    (h : decompress t = some (Except.ok buf)) :
    (t.format = TextureFormat.R7G6B5A1 →
      decompress_r7g6b5a1 t.data (TextureProperties.from_texture t) = some buf) ∧
    (t.format = TextureFormat.ARGB4 →
      decompress_argb4 t.data (TextureProperties.from_texture t) = some buf) ∧
    (t.format = TextureFormat.RGB8A1 →
      decompress_rgb8a1 t.data (TextureProperties.from_texture t) t.brightness t.rgb_0
        t.rgb_1 = some buf) := by
  have hlen := decompress_ok_len h
  have hcond : ¬ (t.data.length ≠ (TextureProperties.from_texture t).data_length) :=
    fun hne => hne hlen
  simp only [decompress] at h
  rw [if_neg hcond] at h
  refine ⟨?_, ?_, ?_⟩
  · intro hf
    rw [hf] at h
    cases hv : decompress_r7g6b5a1 t.data (TextureProperties.from_texture t) with
    | none => rw [hv] at h; simp at h
    | some v =>
      rw [hv] at h
      rw [show Option.map Except.ok (some v) = some (Except.ok v) from rfl] at h
      rw [Option.some.injEq, Except.ok.injEq] at h
      rw [h]
  · intro hf
    rw [hf] at h
    cases hv : decompress_argb4 t.data (TextureProperties.from_texture t) with
    | none => rw [hv] at h; simp at h
    | some v =>
      rw [hv] at h
      rw [show Option.map Except.ok (some v) = some (Except.ok v) from rfl] at h
      rw [Option.some.injEq, Except.ok.injEq] at h
      rw [h]
  · intro hf
    rw [hf] at h
    cases hv : decompress_rgb8a1 t.data (TextureProperties.from_texture t) t.brightness
        t.rgb_0 t.rgb_1 with
    | none => rw [hv] at h; simp at h
    | some v =>
      rw [hv] at h
      rw [show Option.map Except.ok (some v) = some (Except.ok v) from rfl] at h
      rw [Option.some.injEq, Except.ok.injEq] at h
      rw [h]

theorem decompress_eq_ok {t : Texture} {buf : List Nat}
    (hlen : t.data.length = (TextureProperties.from_texture t).data_length) :
    ((t.format = TextureFormat.R7G6B5A1 →
        decompress_r7g6b5a1 t.data (TextureProperties.from_texture t) = some buf →
        decompress t = some (Except.ok buf)) ∧
     (t.format = TextureFormat.ARGB4 →
        decompress_argb4 t.data (TextureProperties.from_texture t) = some buf →
        decompress t = some (Except.ok buf)) ∧
     (t.format = TextureFormat.RGB8A1 →
        decompress_rgb8a1 t.data (TextureProperties.from_texture t) t.brightness t.rgb_0
          t.rgb_1 = some buf →
        decompress t = some (Except.ok buf))) := by
  have hcond : ¬ (t.data.length ≠ (TextureProperties.from_texture t).data_length) :=
    fun hne => hne hlen
  refine ⟨?_, ?_, ?_⟩ <;> intro hf hd <;>
    simp only [decompress, hf, hd] <;>
    rw [if_neg hcond] <;>
    rfl

theorem u32_sub_8_small {b : Nat} (hb : b ≤ 8) : u32_sub 8 b = 8 - b := by
  unfold u32_sub
  omega

theorem size_of_small {t : Texture} (h8 : t.size_1 ≤ 8) :
    (1 <<< (u32_sub 8 t.size_1 % 32)) % 4294967296 = 2 ^ (8 - t.size_1) := by
  rw [u32_sub_8_small h8]
  have h32 : (8 - t.size_1) % 32 = 8 - t.size_1 := Nat.mod_eq_of_lt (by omega)
  rw [h32, Nat.shiftLeft_eq, Nat.one_mul]
  have hle : 2 ^ (8 - t.size_1) ≤ 256 := by
    calc 2 ^ (8 - t.size_1) ≤ 2 ^ 8 := Nat.pow_le_pow_right (by norm_num) (by omega)
      _ = 256 := by norm_num
  exact Nat.mod_eq_of_lt (by omega)

theorem props_of_small {t : Texture} (h8 : t.size_1 ≤ 8) :
    (TextureProperties.from_texture t).width ≤ 256 ∧
      (TextureProperties.from_texture t).height ≤ 256 := by
  have hsz := size_of_small h8
  have hle : 2 ^ (8 - t.size_1) ≤ 256 := by
    calc 2 ^ (8 - t.size_1) ≤ 2 ^ 8 := Nat.pow_le_pow_right (by norm_num) (by omega)
      _ = 256 := by norm_num
  have hsr : ∀ s : Nat, 2 ^ (8 - t.size_1) >>> s ≤ 256 := by
    intro s
    rw [Nat.shiftRight_eq_div_pow]
    exact le_trans (Nat.div_le_self _ _) hle
  simp only [TextureProperties.from_texture]
  split
  · exact ⟨by simp only [hsz]; exact hsr _, by simp only [hsz]; exact hle⟩
  · exact ⟨by simp only [hsz]; exact hle, by simp only [hsz]; exact hsr _⟩

theorem stride_of_fmt (t : Texture) :
    ((t.format = TextureFormat.R7G6B5A1 ∨ t.format = TextureFormat.ARGB4) →
      (TextureProperties.from_texture t).stride = 2) ∧
    (t.format = TextureFormat.RGB8A1 → (TextureProperties.from_texture t).stride = 1) := by
  constructor
  · intro hf
    rcases hf with hf | hf <;> simp only [TextureProperties.from_texture, hf] <;>
      split <;> rfl
  · intro hf
    simp only [TextureProperties.from_texture, hf]
    split <;> rfl

theorem stride_pos (t : Texture) : 0 < (TextureProperties.from_texture t).stride := by
  simp only [TextureProperties.from_texture]
  split <;> (cases t.format <;> simp)

theorem data_length_eq {pr : TextureProperties}
    (hsmall : pr.width * pr.height * pr.stride < 4294967296) (hs : 0 < pr.stride) :
    pr.data_length = pr.width * pr.height * pr.stride := by
  unfold TextureProperties.data_length
  have h0 : pr.width * pr.height * 1 ≤ pr.width * pr.height * pr.stride :=
    Nat.mul_le_mul_left _ hs
  rw [Nat.mul_one] at h0
  have h1 : pr.width * pr.height % 4294967296 = pr.width * pr.height :=
    Nat.mod_eq_of_lt (by omega)
  rw [h1, Nat.mod_eq_of_lt (by omega)]

theorem r7PixelAt_length {data : List Nat} {h : Nat} :
    ∀ x y r, r7PixelAt data h x y = some r → r.length = 4 := by
  intro x y r hr
  unfold r7PixelAt at hr
  split at hr
  · cases hr; rfl
  · cases hr

theorem argb4PixelAt_length {data : List Nat} {h : Nat} :
    ∀ x y r, argb4PixelAt data h x y = some r → r.length = 4 := by
  intro x y r hr
  unfold argb4PixelAt at hr
  split at hr
  · cases hr; rfl
  · cases hr

theorem rgb8a1PixelAt_length {data br : List Nat} {r0 r1 : List Rgb} {h : Nat} :
    ∀ x y r, rgb8a1PixelAt data br r0 r1 h x y = some r → r.length = 4 := by
  intro x y r hr
  unfold rgb8a1PixelAt at hr
  split at hr
  · cases hr; rfl
  · cases hr

theorem r7_fill_ok {data : List Nat} {pr : TextureProperties}
    (hlen : data.length = 2 * (pr.width * pr.height)) :
    ∃ buf, decompress_r7g6b5a1 data pr = some buf ∧
      buf.length = 4 * (pr.height * pr.width) ∧
      ∀ x y, x < pr.width → y < pr.height →
        ∃ lo hi, data[2 * (y + x * pr.height)]? = some lo ∧
          data[2 * (y + x * pr.height) + 1]? = some hi ∧
          ∀ j, j < 4 → buf[4 * (y + x * pr.height) + j]? =
            (r7Pixel (lo ||| (hi <<< 8)))[j]? := by
  have hread : ∀ x y, x < pr.width → y < pr.height →
      2 * (y + x * pr.height) + 1 < data.length := by
    intro x y hx hy
    have := cm_index_lt hx hy
    omega
  have hsome : ∀ x, x < pr.width → ∀ y, y < pr.height →
      (r7PixelAt data pr.height x y).isSome := by
    intro x hx y hy
    unfold r7PixelAt
    rw [List.getElem?_eq_getElem (by have := hread x y hx hy; omega),
      List.getElem?_eq_getElem (hread x y hx hy)]
    rfl
  obtain ⟨buf, hbuf⟩ := fillCM_isSome hsome
  refine ⟨buf, hbuf, fillCM_length hbuf r7PixelAt_length, ?_⟩
  intro x y hx hy
  cases hlo : data[2 * (y + x * pr.height)]? with
  | none =>
    rw [List.getElem?_eq_getElem (by have := hread x y hx hy; omega)] at hlo
    cases hlo
  | some lo =>
    cases hhi : data[2 * (y + x * pr.height) + 1]? with
    | none =>
      rw [List.getElem?_eq_getElem (hread x y hx hy)] at hhi
      cases hhi
    | some hi =>
      refine ⟨lo, hi, rfl, rfl, ?_⟩
      intro j hj
      apply fillCM_get hbuf r7PixelAt_length hx hy ?_ hj
      unfold r7PixelAt
      rw [hlo, hhi]

theorem argb4_fill_ok {data : List Nat} {pr : TextureProperties}
    (hlen : data.length = 2 * (pr.width * pr.height)) :
    ∃ buf, decompress_argb4 data pr = some buf ∧
      buf.length = 4 * (pr.height * pr.width) ∧
      ∀ x y, x < pr.width → y < pr.height →
        ∃ lo hi, data[2 * (y + x * pr.height)]? = some lo ∧
          data[2 * (y + x * pr.height) + 1]? = some hi ∧
          ∀ j, j < 4 → buf[4 * (y + x * pr.height) + j]? =
            (argb4Pixel (lo ||| (hi <<< 8)))[j]? := by
  have hread : ∀ x y, x < pr.width → y < pr.height →
      2 * (y + x * pr.height) + 1 < data.length := by
    intro x y hx hy
    have := cm_index_lt hx hy
    omega
  have hsome : ∀ x, x < pr.width → ∀ y, y < pr.height →
      (argb4PixelAt data pr.height x y).isSome := by
    intro x hx y hy
    unfold argb4PixelAt
    rw [List.getElem?_eq_getElem (by have := hread x y hx hy; omega),
      List.getElem?_eq_getElem (hread x y hx hy)]
    rfl
  obtain ⟨buf, hbuf⟩ := fillCM_isSome hsome
  refine ⟨buf, hbuf, fillCM_length hbuf argb4PixelAt_length, ?_⟩
  intro x y hx hy
  cases hlo : data[2 * (y + x * pr.height)]? with
  | none =>
    rw [List.getElem?_eq_getElem (by have := hread x y hx hy; omega)] at hlo
    cases hlo
  | some lo =>
    cases hhi : data[2 * (y + x * pr.height) + 1]? with
    | none =>
      rw [List.getElem?_eq_getElem (hread x y hx hy)] at hhi
      cases hhi
    | some hi =>
      refine ⟨lo, hi, rfl, rfl, ?_⟩
      intro j hj
      apply fillCM_get hbuf argb4PixelAt_length hx hy ?_ hj
      unfold argb4PixelAt
      rw [hlo, hhi]

theorem rgb8a1_fill_ok (br : List Nat) (r0 r1 : List Rgb) {data : List Nat}
    {pr : TextureProperties} (hlen : data.length = pr.width * pr.height) :
    ∃ main, fillCM (rgb8a1PixelAt data br r0 r1 pr.height) pr.width pr.height = some main ∧
      main.length = 4 * (pr.height * pr.width) ∧
      ∀ x y, x < pr.width → y < pr.height →
        ∃ p, data[y + x * pr.height]? = some p ∧
          ∀ j, j < 4 → main[4 * (y + x * pr.height) + j]? =
            (rgb8a1Pixel br r0 r1 p)[j]? := by
  have hread : ∀ x y, x < pr.width → y < pr.height → y + x * pr.height < data.length := by
    intro x y hx hy
    have := cm_index_lt hx hy
    omega
  have hsome : ∀ x, x < pr.width → ∀ y, y < pr.height →
      (rgb8a1PixelAt data br r0 r1 pr.height x y).isSome := by
    intro x hx y hy
    unfold rgb8a1PixelAt
    rw [List.getElem?_eq_getElem (hread x y hx hy)]
    rfl
  obtain ⟨main, hmain⟩ := fillCM_isSome hsome
  refine ⟨main, hmain, fillCM_length hmain rgb8a1PixelAt_length, ?_⟩
  intro x y hx hy
  cases hp : data[y + x * pr.height]? with
  | none =>
    rw [List.getElem?_eq_getElem (hread x y hx hy)] at hp
    cases hp
  | some p =>
    refine ⟨p, rfl, ?_⟩
    intro j hj
    apply fillCM_get hmain rgb8a1PixelAt_length hx hy ?_ hj
    unfold rgb8a1PixelAt
    rw [hp]

theorem map_ok_ne_error {α ε : Type} {o : Option α} {e : ε} :
    Option.map Except.ok o ≠ some (Except.error e) := by
  cases o <;> simp

/-- C1: the claim states that for every RGB8A1 texture accepted by
`decompress` with at least 3 data bytes, the output pixels at column-major
positions 1 and 2 are byte-for-byte equal to pixel 0.  This evaluation shows
the code violating it (and its own comment, which says the 2nd and 3rd pixels
are always overwritten by the 1st): `c1Tex` is accepted, has 4 data bytes,
width 1 and height 4, and the quirk pass computes `x = i % 1 = 0`,
`y = i / 4 = 0`, so it rewrites pixel 0 instead of pixels 1 and 2, leaving
byte 4 equal to 255 while byte 0 is 0. -/
theorem c1_quirk_not_applied :
    c1Tex.format = TextureFormat.RGB8A1 ∧
    c1Tex.data.length = (TextureProperties.from_texture c1Tex).data_length ∧
    3 ≤ c1Tex.data.length ∧
    decompress c1Tex = some (Except.ok c1Buf) ∧
    c1Buf[4]? = some 255 ∧ c1Buf[8]? = some 255 ∧ c1Buf[0]? = some 0 ∧
    c1Buf[4]? ≠ c1Buf[0]? := by
  exact ⟨rfl, by decide, by decide, rfl, by decide, by decide, by decide, by decide⟩

/-- C2 counterexample: the claim asserts that excessive shifts in
`TextureProperties::from_texture` yield width/height 0, and that `decompress`
returns a buffer whenever the data length matches the derived
`width*height*stride`.  Both parts fail on the code: `size_1 = 9` makes the
wrapped shift produce width `2^31`, not 0, and the RGB8A1 texture `c2bTex`
(width 2, height 1, matching data length 2) drives the quirk pass out of
bounds, a panic rather than a returned buffer. -/
theorem c2_counterexample :
    (TextureProperties.from_texture c2aTex).width = 2147483648 ∧
    (TextureProperties.from_texture c2aTex).width ≠ 0 ∧
    c2bTex.data.length = (TextureProperties.from_texture c2bTex).data_length ∧
    decompress c2bTex = none := by
  exact ⟨by decide, by decide, by decide, rfl⟩

/-- C4: `decompress` returns the `Err(())` length-mismatch error exactly when
the texture's data length differs from the `width*height*stride` derived by
the geometry, and whenever it returns a buffer the lengths agree (the error
case carries no buffer and attempts no partial decode). -/
theorem c4_error_iff_length_mismatch (t : Texture) :
    (decompress t = some (Except.error ()) ↔
      t.data.length ≠ (TextureProperties.from_texture t).data_length) ∧
    (∀ buf, decompress t = some (Except.ok buf) →
      t.data.length = (TextureProperties.from_texture t).data_length) := by
  refine ⟨⟨?_, ?_⟩, fun buf h => decompress_ok_len h⟩
  · intro h
    by_contra hc
    simp only [decompress] at h
    rw [if_neg (fun hne => hne hc)] at h
    cases htf : t.format <;> rw [htf] at h <;> exact map_ok_ne_error h
  · intro hc
    simp only [decompress]
    rw [if_pos hc]

/-- C4 witness: at the concrete texture `texBadLen` (empty data, expected
length 1) the theorem yields the error result. -/
theorem c4_witness : decompress texBadLen = some (Except.error ()) :=
  (c4_error_iff_length_mismatch texBadLen).1.mpr (by decide)

/-- C5: for `size_1 ≤ 8` (and an aspect code below 35 when above 3, so that
no shift amount is masked), the derived geometry follows the claimed formula
`base = 1 << (8 - size_1)`, halving width for aspect codes above 3 and height
for codes below 3; the stride is 2 for R7G6B5A1 and ARGB4 and 1 for RGB8A1;
and the two concrete examples hold: `size_1 = 8, aspect_ratio = 3` gives a
1-by-1 texture and `size_1 = 5, aspect_ratio = 5` gives width 2, height 8. -/
theorem c5_geometry (t : Texture) (h8 : t.size_1 ≤ 8)
    (h35 : 3 < t.aspect → t.aspect < 35) :
    ((3 < t.aspect →
        (TextureProperties.from_texture t).width =
          (1 <<< (8 - t.size_1)) >>> (t.aspect - 3) ∧
        (TextureProperties.from_texture t).height = 1 <<< (8 - t.size_1)) ∧
      (¬ 3 < t.aspect →
        (TextureProperties.from_texture t).width = 1 <<< (8 - t.size_1) ∧
        (TextureProperties.from_texture t).height =
          (1 <<< (8 - t.size_1)) >>> (3 - t.aspect))) ∧
    ((t.format = TextureFormat.R7G6B5A1 ∨ t.format = TextureFormat.ARGB4) →
      (TextureProperties.from_texture t).stride = 2) ∧
    (t.format = TextureFormat.RGB8A1 → (TextureProperties.from_texture t).stride = 1) ∧
    (TextureProperties.from_texture cT5a).width = 1 ∧
    (TextureProperties.from_texture cT5a).height = 1 ∧
    (TextureProperties.from_texture cT5b).width = 2 ∧
    (TextureProperties.from_texture cT5b).height = 8 := by
  have e1 : (1 : Nat) <<< (8 - t.size_1) = 2 ^ (8 - t.size_1) := by
    rw [Nat.shiftLeft_eq, Nat.one_mul]
  refine ⟨⟨?_, ?_⟩, (stride_of_fmt t).1, (stride_of_fmt t).2, by decide, by decide,
    by decide, by decide⟩
  · intro ha
    have e2 : (t.aspect - 3) % 32 = t.aspect - 3 :=
      Nat.mod_eq_of_lt (by have := h35 ha; omega)
    simp only [TextureProperties.from_texture]
    rw [if_pos ha]
    simp only [size_of_small h8, e1, e2]
    constructor <;> trivial
  · intro ha
    have e2 : (3 - t.aspect) % 32 = 3 - t.aspect := Nat.mod_eq_of_lt (by omega)
    simp only [TextureProperties.from_texture]
    rw [if_neg ha]
    simp only [size_of_small h8, e1, e2]
    constructor <;> trivial

/-- C5 witness: the theorem applied at `cT5a` reproduces the second concrete
geometry example. -/
theorem c5_geometry_witness :
    (TextureProperties.from_texture cT5b).width = 2 ∧
      (TextureProperties.from_texture cT5b).height = 8 := by
  have h := c5_geometry cT5a (by decide) (by decide)
  exact ⟨h.2.2.2.2.2.1, h.2.2.2.2.2.2⟩

/-- C7: the palette arithmetic of the RGB8A1 decoder.  The `(field << 7) >> 7`
expression sign-extends the low 9 bits of the field, always yielding a value
in `[-256, 255]`; every output channel byte of `rgb8a1Pixel` is the clamp
`clamp(l + e0 + e1, 0, 255)` of the brightness level plus the two
sign-extended palette corrections, cast to a byte; a sum of exactly -1 clamps
to 0 and a sum of exactly 256 clamps to 255; and every clamped value — hence
every output channel byte — lies in `[0, 255]`. -/
theorem c7_rgb8a1_palette_arithmetic :
    (∀ v : Int, shl7_shr7 v = (v + 256) % 512 - 256) ∧
    (∀ v : Int, -256 ≤ shl7_shr7 v ∧ shl7_shr7 v ≤ 255) ∧
    (∀ (br : List Nat) (r0 r1 : List Rgb) (p : Nat),
      rgb8a1Pixel br r0 r1 p =
        [intToU8 (clampI ((br.getD (p >>> 4) 0 : Int) +
            shl7_shr7 (r0.getD ((p >>> 2) % 4) zeroRgb).r +
            shl7_shr7 (r1.getD (p % 4) zeroRgb).r) 0 255),
         intToU8 (clampI ((br.getD (p >>> 4) 0 : Int) +
            shl7_shr7 (r0.getD ((p >>> 2) % 4) zeroRgb).g +
            shl7_shr7 (r1.getD (p % 4) zeroRgb).g) 0 255),
         intToU8 (clampI ((br.getD (p >>> 4) 0 : Int) +
            shl7_shr7 (r0.getD ((p >>> 2) % 4) zeroRgb).b +
            shl7_shr7 (r1.getD (p % 4) zeroRgb).b) 0 255),
         if intToU8 (clampI ((br.getD (p >>> 4) 0 : Int) +
              shl7_shr7 (r0.getD ((p >>> 2) % 4) zeroRgb).r +
              shl7_shr7 (r1.getD (p % 4) zeroRgb).r) 0 255) |||
            intToU8 (clampI ((br.getD (p >>> 4) 0 : Int) +
              shl7_shr7 (r0.getD ((p >>> 2) % 4) zeroRgb).g +
              shl7_shr7 (r1.getD (p % 4) zeroRgb).g) 0 255) |||
            intToU8 (clampI ((br.getD (p >>> 4) 0 : Int) +
              shl7_shr7 (r0.getD ((p >>> 2) % 4) zeroRgb).b +
              shl7_shr7 (r1.getD (p % 4) zeroRgb).b) 0 255) = 0
         then 0 else 255]) ∧
    clampI (-1) 0 255 = 0 ∧
    clampI 256 0 255 = 255 ∧
    (∀ s : Int, 0 ≤ clampI s 0 255 ∧ clampI s 0 255 ≤ 255 ∧
      intToU8 (clampI s 0 255) = (clampI s 0 255).toNat) ∧
    (∀ (br : List Nat) (r0 r1 : List Rgb) (p : Nat),
      ((rgb8a1Pixel br r0 r1 p).all fun c => decide (c ≤ 255)) = true) := by
  have hsext : ∀ v : Int, shl7_shr7 v = (v + 256) % 512 - 256 := by
    intro v
    show ((v * 128 + 32768) % 65536 - 32768) / 128 = (v + 256) % 512 - 256
    set q := (v * 128 + 32768) % 65536 with hq
    have hq1 : 0 ≤ q := Int.emod_nonneg _ (by norm_num)
    have hq2 : q < 65536 := Int.emod_lt_of_pos _ (by norm_num)
    obtain ⟨k, hk⟩ : ∃ k, v * 128 + 32768 - q = 65536 * k :=
      ⟨(v * 128 + 32768) / 65536, by rw [hq, Int.emod_def]; ring⟩
    have hstep : q - 32768 = 128 * (v - 512 * k) := by linarith
    have hdiv : (q - 32768) / 128 = v - 512 * k := by
      rw [hstep, Int.mul_ediv_cancel_left _ (by norm_num : (128 : Int) ≠ 0)]
    rw [hdiv]
    omega
  have hu : ∀ w : Int, intToU8 w ≤ 255 := by
    intro w
    unfold intToU8
    omega
  refine ⟨hsext, ?_, ?_, by decide, by decide, ?_, ?_⟩
  · intro v
    rw [hsext v]
    omega
  · intro br r0 r1 p
    rfl
  · intro s
    refine ⟨?_, ?_, ?_⟩
    · unfold clampI
      omega
    · unfold clampI
      omega
    · unfold intToU8
      have h1 : 0 ≤ clampI s 0 255 := by unfold clampI; omega
      have h2 : clampI s 0 255 ≤ 255 := by unfold clampI; omega
      rw [Int.emod_eq_of_lt h1 (by omega)]
  · intro br r0 r1 p
    simp only [rgb8a1Pixel, List.all_cons, List.all_nil, Bool.and_eq_true,
      decide_eq_true_eq, Bool.and_true]
    refine ⟨hu _, hu _, hu _, ?_⟩
    split <;> omega

theorem readTexture_asserts {s : List Nat} {t : Texture} {r : List Nat}
    (h : readTexture s = some (t, r)) :
    t.size_0 = t.size_1 ∧ t.data_count_0 = t.data_count_1 := by
  unfold readTexture at h
  obtain ⟨⟨size_0, s1⟩, h1, h⟩ := Option.bind_eq_some.mp h
  obtain ⟨⟨size_1, s2⟩, h2, h⟩ := Option.bind_eq_some.mp h
  obtain ⟨⟨aspect, s3⟩, h3, h⟩ := Option.bind_eq_some.mp h
  obtain ⟨⟨format, s4⟩, h4, h⟩ := Option.bind_eq_some.mp h
  obtain ⟨⟨unk_0, s5⟩, h5, h⟩ := Option.bind_eq_some.mp h
  obtain ⟨⟨brightness, s6⟩, h6, h⟩ := Option.bind_eq_some.mp h
  obtain ⟨⟨rgb_0, s7⟩, h7, h⟩ := Option.bind_eq_some.mp h
  obtain ⟨⟨rgb_1, s8⟩, h8, h⟩ := Option.bind_eq_some.mp h
  obtain ⟨⟨unk_1, s9⟩, h9, h⟩ := Option.bind_eq_some.mp h
  obtain ⟨⟨data_count_0, s10⟩, h10, h⟩ := Option.bind_eq_some.mp h
  obtain ⟨⟨data_count_1, s11⟩, h11, h⟩ := Option.bind_eq_some.mp h
  obtain ⟨⟨data, s12⟩, h12, h⟩ := Option.bind_eq_some.mp h
  dsimp only at h
  by_cases hc : size_0 = size_1 ∧ data_count_0 = data_count_1
  · rw [if_pos hc] at h
    cases h
    exact hc
  · rw [if_neg hc] at h
    cases h

theorem readCount_mem {α : Type} {rd : List Nat → Option (α × List Nat)} :
    ∀ {n : Nat} {s : List Nat} {as : List α} {r : List Nat},
      readCount rd n s = some (as, r) → ∀ a ∈ as, ∃ s2 r2, rd s2 = some (a, r2) := by
  intro n
  induction n with
  | zero =>
    intro s as r h a ha
    cases h
    cases ha
  | succ n ih =>
    intro s as r h a ha
    unfold readCount at h
    split at h
    next a0 s1 heq1 =>
      split at h
      next as1 r1 heq2 =>
        cases h
        rcases List.mem_cons.mp ha with ha0 | has
        · exact ⟨s, s1, ha0 ▸ heq1⟩
        · exact ih heq2 a has
      next heq2 => cases h
    next heq1 => cases h

/-- C8: the container parser accepts a texture record only when
`size_0 = size_1` and `data_count_0 = data_count_1`: every texture produced by
`readTexture`, and hence every texture of a parsed container, satisfies both
equalities, and the concrete stream `badStream`, which encodes `size_0 = 1`
and `size_1 = 0`, is rejected (`none`). -/
theorem c8_parser_asserts :
    (∀ (s : List Nat) (t : Texture) (r : List Nat), readTexture s = some (t, r) →
      t.size_0 = t.size_1 ∧ t.data_count_0 = t.data_count_1) ∧
    (∀ (s : List Nat) (f : VfxFile) (r : List Nat), readVfxFile s = some (f, r) →
      ∀ t ∈ f.textures, t.size_0 = t.size_1 ∧ t.data_count_0 = t.data_count_1) ∧
    readTexture badStream = none := by
  refine ⟨fun s t r h => readTexture_asserts h, ?_, by rfl⟩
  intro s f r h t ht
  simp only [readVfxFile, bind, Option.bind_eq_some] at h
  obtain ⟨⟨texture_count, s1⟩, h1, h⟩ := h
  obtain ⟨⟨textures, s2⟩, h2, h⟩ := h
  cases h
  obtain ⟨s3, r3, h3⟩ := readCount_mem h2 t ht
  exact readTexture_asserts h3

/-- C8 witness: the theorem applied to the concrete well-formed stream
`goodStream`, which parses to `goodTex`. -/
theorem c8_witness : goodTex.size_0 = goodTex.size_1 ∧
    goodTex.data_count_0 = goodTex.data_count_1 :=
  c8_parser_asserts.1 goodStream goodTex [] (by rfl)

/-- C10: for every RGB8A1 texture whose decode returns a buffer, the post-pass
quirk overwrite leaves the 4 output bytes of pixel 0 (buffer indices 0-3)
unchanged: they still equal the values produced by the main column-major
decoding pass (every quirk write lands either at index 0 copying the bytes
onto themselves, or at an index of at least 4). -/
theorem c10_rgb8a1_pixel0_preserved (t : Texture) (buf : List Nat)
    (hf : t.format = TextureFormat.RGB8A1)
    (hok : decompress t = some (Except.ok buf)) :
    ∃ main, fillCM (rgb8a1PixelAt t.data t.brightness t.rgb_0 t.rgb_1
        (TextureProperties.from_texture t).height)
      (TextureProperties.from_texture t).width
      (TextureProperties.from_texture t).height = some main ∧
      buf[0]? = main[0]? ∧ buf[1]? = main[1]? ∧ buf[2]? = main[2]? ∧
      buf[3]? = main[3]? := by
  have hd := (decompress_fmt_inv hok).2.2 hf
  obtain ⟨main, hmain, hq⟩ := decompress_rgb8a1_inv hd
  obtain ⟨_, hp⟩ := quirkLoop_first4 hq
  exact ⟨main, hmain, hp 0 (by omega), hp 1 (by omega), hp 2 (by omega), hp 3 (by omega)⟩

/-- C10 witness: the theorem applied at the concrete texture `tex2x2R8`,
whose decode returns `tex2x2Buf`. -/
theorem c10_witness :
    ∃ main, fillCM (rgb8a1PixelAt tex2x2R8.data tex2x2R8.brightness tex2x2R8.rgb_0
        tex2x2R8.rgb_1 (TextureProperties.from_texture tex2x2R8).height)
      (TextureProperties.from_texture tex2x2R8).width
      (TextureProperties.from_texture tex2x2R8).height = some main ∧
      tex2x2Buf[0]? = main[0]? ∧ tex2x2Buf[1]? = main[1]? ∧ tex2x2Buf[2]? = main[2]? ∧
      tex2x2Buf[3]? = main[3]? :=
  c10_rgb8a1_pixel0_preserved tex2x2R8 tex2x2Buf rfl (by rfl)

theorem r7_mods (p : Nat) :
    ((p &&& 0x7C00) >>> 7) % 256 = (p &&& 0x7C00) >>> 7 ∧
    ((p &&& 0x3E0) >>> 2) % 256 = (p &&& 0x3E0) >>> 2 ∧
    ((p &&& 0x1F) <<< 3) % 256 = (p &&& 0x1F) <<< 3 := by
  have h1 : p &&& 0x7C00 ≤ 0x7C00 := Nat.and_le_right
  have h2 : p &&& 0x3E0 ≤ 0x3E0 := Nat.and_le_right
  have h3 : p &&& 0x1F ≤ 0x1F := Nat.and_le_right
  refine ⟨?_, ?_, ?_⟩
  · rw [Nat.shiftRight_eq_div_pow]
    exact Nat.mod_eq_of_lt (by omega)
  · rw [Nat.shiftRight_eq_div_pow]
    exact Nat.mod_eq_of_lt (by omega)
  · rw [Nat.shiftLeft_eq]
    exact Nat.mod_eq_of_lt (by omega)

theorem argb4_mods (p : Nat) :
    ((p &&& 0xF00) >>> 4) % 256 = (p &&& 0xF00) >>> 4 ∧
    (p &&& 0xF0) % 256 = p &&& 0xF0 ∧
    ((p &&& 0xF) <<< 4) % 256 = (p &&& 0xF) <<< 4 ∧
    ((p &&& 0xF000) >>> 8) % 256 = (p &&& 0xF000) >>> 8 := by
  have h1 : p &&& 0xF00 ≤ 0xF00 := Nat.and_le_right
  have h2 : p &&& 0xF0 ≤ 0xF0 := Nat.and_le_right
  have h3 : p &&& 0xF ≤ 0xF := Nat.and_le_right
  have h4 : p &&& 0xF000 ≤ 0xF000 := Nat.and_le_right
  refine ⟨?_, ?_, ?_, ?_⟩
  · rw [Nat.shiftRight_eq_div_pow]
    exact Nat.mod_eq_of_lt (by omega)
  · exact Nat.mod_eq_of_lt (by omega)
  · rw [Nat.shiftLeft_eq]
    exact Nat.mod_eq_of_lt (by omega)
  · rw [Nat.shiftRight_eq_div_pow]
    exact Nat.mod_eq_of_lt (by omega)

theorem accepted_of_2bpp {t : Texture}
    (hf : t.format = TextureFormat.R7G6B5A1 ∨ t.format = TextureFormat.ARGB4)
    (hlen : t.data.length =
      2 * ((TextureProperties.from_texture t).width *
        (TextureProperties.from_texture t).height))
    (hsmall : 2 * ((TextureProperties.from_texture t).width *
      (TextureProperties.from_texture t).height) < 4294967296) :
    t.data.length = (TextureProperties.from_texture t).data_length := by
  have hstride := (stride_of_fmt t).1 hf
  have hlt : (TextureProperties.from_texture t).width *
      (TextureProperties.from_texture t).height *
      (TextureProperties.from_texture t).stride < 4294967296 := by
    rw [hstride]
    omega
  rw [data_length_eq hlt (by rw [hstride]; omega), hstride]
  omega

/-- C6: for every R7G6B5A1 texture accepted by `decompress` (data length
`2 * width * height`, below the `u32` wrap), the decode succeeds and the
output bytes at `4 * (y + x * height)` are exactly the claimed functions of
the little-endian word `p = lo | (hi << 8)` read at byte offset
`2 * (y + x * height)`: `r = (p & 0x7C00) >> 7`, `g = (p & 0x3E0) >> 2`,
`b = (p & 0x1F) << 3`, and alpha 0 when `(p & 0x7FFF) = 0` or
`(p & 0x8000) = 0` and 255 otherwise; in particular word 0 decodes to
`(0, 0, 0, 0)` and word 0xFFFF decodes with alpha 255. -/
theorem c6_r7g6b5a1_decode (t : Texture)
    (hf : t.format = TextureFormat.R7G6B5A1)
    (hlen : t.data.length =
      2 * ((TextureProperties.from_texture t).width *
        (TextureProperties.from_texture t).height))
    (hsmall : 2 * ((TextureProperties.from_texture t).width *
      (TextureProperties.from_texture t).height) < 4294967296) :
    (∃ buf, decompress t = some (Except.ok buf) ∧
      ∀ x y, x < (TextureProperties.from_texture t).width →
        y < (TextureProperties.from_texture t).height →
        ∃ lo hi,
          t.data[2 * (y + x * (TextureProperties.from_texture t).height)]? = some lo ∧
          t.data[2 * (y + x * (TextureProperties.from_texture t).height) + 1]? = some hi ∧
          buf[4 * (y + x * (TextureProperties.from_texture t).height)]? =
            some (((lo ||| (hi <<< 8)) &&& 0x7C00) >>> 7) ∧
          buf[4 * (y + x * (TextureProperties.from_texture t).height) + 1]? =
            some (((lo ||| (hi <<< 8)) &&& 0x3E0) >>> 2) ∧
          buf[4 * (y + x * (TextureProperties.from_texture t).height) + 2]? =
            some (((lo ||| (hi <<< 8)) &&& 0x1F) <<< 3) ∧
          buf[4 * (y + x * (TextureProperties.from_texture t).height) + 3]? =
            some (if (lo ||| (hi <<< 8)) &&& 0x7FFF = 0 ∨
                (lo ||| (hi <<< 8)) &&& 0x8000 = 0 then 0 else 255)) ∧
    r7Pixel 0 = [0, 0, 0, 0] ∧ (r7Pixel 0xFFFF)[3]? = some 255 := by
  have hacc := accepted_of_2bpp (Or.inl hf) hlen hsmall
  obtain ⟨buf, hbuf, hblen, hpos⟩ := r7_fill_ok hlen
  refine ⟨⟨buf, (decompress_eq_ok hacc).1 hf hbuf, ?_⟩, by decide, by decide⟩
  intro x y hx hy
  obtain ⟨lo, hi, hlo, hhi, hj⟩ := hpos x y hx hy
  have h0 := hj 0 (by omega)
  have h1 := hj 1 (by omega)
  have h2 := hj 2 (by omega)
  have h3 := hj 3 (by omega)
  rw [Nat.add_zero] at h0
  refine ⟨lo, hi, hlo, hhi, ?_, ?_, ?_, ?_⟩
  · rw [h0, show (r7Pixel (lo ||| (hi <<< 8)))[0]? =
      some ((((lo ||| (hi <<< 8)) &&& 0x7C00) >>> 7) % 256) from by simp [r7Pixel],
      (r7_mods _).1]
  · rw [h1, show (r7Pixel (lo ||| (hi <<< 8)))[1]? =
      some ((((lo ||| (hi <<< 8)) &&& 0x3E0) >>> 2) % 256) from by simp [r7Pixel],
      (r7_mods _).2.1]
  · rw [h2, show (r7Pixel (lo ||| (hi <<< 8)))[2]? =
      some ((((lo ||| (hi <<< 8)) &&& 0x1F) <<< 3) % 256) from by simp [r7Pixel],
      (r7_mods _).2.2]
  · rw [h3]
    simp [r7Pixel]

/-- C6 witness: the theorem applied at the 1-by-1 texture `tex1x1R7`. -/
theorem c6_witness :
    r7Pixel 0 = [0, 0, 0, 0] ∧ (r7Pixel 0xFFFF)[3]? = some 255 :=
  (c6_r7g6b5a1_decode tex1x1R7 rfl (by decide) (by decide)).2

/-- C9: for every ARGB4 texture accepted by `decompress` (data length
`2 * width * height`, below the `u32` wrap), the decode succeeds and the
output bytes at `4 * (y + x * height)` are exactly the claimed functions of
the little-endian word `p`: `r = (p & 0x0F00) >> 4`, `g = p & 0x00F0`,
`b = (p & 0x000F) << 4`, `a = (p & 0xF000) >> 8`; in particular word 0xF123
decodes to `a = 0xF0`, `r = 0x10`, `g = 0x20`, `b = 0x30`. -/
theorem c9_argb4_decode (t : Texture)
    (hf : t.format = TextureFormat.ARGB4)
    (hlen : t.data.length =
      2 * ((TextureProperties.from_texture t).width *
        (TextureProperties.from_texture t).height))
    (hsmall : 2 * ((TextureProperties.from_texture t).width *
      (TextureProperties.from_texture t).height) < 4294967296) :
    (∃ buf, decompress t = some (Except.ok buf) ∧
      ∀ x y, x < (TextureProperties.from_texture t).width →
        y < (TextureProperties.from_texture t).height →
        ∃ lo hi,
          t.data[2 * (y + x * (TextureProperties.from_texture t).height)]? = some lo ∧
          t.data[2 * (y + x * (TextureProperties.from_texture t).height) + 1]? = some hi ∧
          buf[4 * (y + x * (TextureProperties.from_texture t).height)]? =
            some (((lo ||| (hi <<< 8)) &&& 0xF00) >>> 4) ∧
          buf[4 * (y + x * (TextureProperties.from_texture t).height) + 1]? =
            some ((lo ||| (hi <<< 8)) &&& 0xF0) ∧
          buf[4 * (y + x * (TextureProperties.from_texture t).height) + 2]? =
            some (((lo ||| (hi <<< 8)) &&& 0xF) <<< 4) ∧
          buf[4 * (y + x * (TextureProperties.from_texture t).height) + 3]? =
            some (((lo ||| (hi <<< 8)) &&& 0xF000) >>> 8)) ∧
    argb4Pixel 0xF123 = [0x10, 0x20, 0x30, 0xF0] := by
  have hacc := accepted_of_2bpp (Or.inr hf) hlen hsmall
  obtain ⟨buf, hbuf, hblen, hpos⟩ := argb4_fill_ok hlen
  refine ⟨⟨buf, (decompress_eq_ok hacc).2.1 hf hbuf, ?_⟩, by decide⟩
  intro x y hx hy
  obtain ⟨lo, hi, hlo, hhi, hj⟩ := hpos x y hx hy
  have h0 := hj 0 (by omega)
  have h1 := hj 1 (by omega)
  have h2 := hj 2 (by omega)
  have h3 := hj 3 (by omega)
  rw [Nat.add_zero] at h0
  refine ⟨lo, hi, hlo, hhi, ?_, ?_, ?_, ?_⟩
  · rw [h0, show (argb4Pixel (lo ||| (hi <<< 8)))[0]? =
      some ((((lo ||| (hi <<< 8)) &&& 0xF00) >>> 4) % 256) from by simp [argb4Pixel],
      (argb4_mods _).1]
  · rw [h1, show (argb4Pixel (lo ||| (hi <<< 8)))[1]? =
      some (((lo ||| (hi <<< 8)) &&& 0xF0) % 256) from by simp [argb4Pixel],
      (argb4_mods _).2.1]
  · rw [h2, show (argb4Pixel (lo ||| (hi <<< 8)))[2]? =
      some ((((lo ||| (hi <<< 8)) &&& 0xF) <<< 4) % 256) from by simp [argb4Pixel],
      (argb4_mods _).2.2.1]
  · rw [h3, show (argb4Pixel (lo ||| (hi <<< 8)))[3]? =
      some ((((lo ||| (hi <<< 8)) &&& 0xF000) >>> 8) % 256) from by simp [argb4Pixel],
      (argb4_mods _).2.2.2]

/-- C9 witness: the theorem applied at the 1-by-1 texture `tex1x1A4`, whose
single word is 0xF123. -/
theorem c9_witness : argb4Pixel 0xF123 = [0x10, 0x20, 0x30, 0xF0] :=
  (c9_argb4_decode tex1x1A4 rfl (by decide) (by decide)).2

theorem decompress_ok_length {t : Texture} {buf : List Nat}
    (h : decompress t = some (Except.ok buf)) :
    buf.length = 4 * ((TextureProperties.from_texture t).width *
      (TextureProperties.from_texture t).height) := by
  have hinv := decompress_fmt_inv h
  cases htf : t.format with
  | R7G6B5A1 =>
    have hd : fillCM (r7PixelAt t.data (TextureProperties.from_texture t).height)
        (TextureProperties.from_texture t).width
        (TextureProperties.from_texture t).height = some buf := hinv.1 htf
    rw [fillCM_length hd r7PixelAt_length]
    ring
  | ARGB4 =>
    have hd : fillCM (argb4PixelAt t.data (TextureProperties.from_texture t).height)
        (TextureProperties.from_texture t).width
        (TextureProperties.from_texture t).height = some buf := hinv.2.1 htf
    rw [fillCM_length hd argb4PixelAt_length]
    ring
  | RGB8A1 =>
    have hd := hinv.2.2 htf
    obtain ⟨main, hmain, hq⟩ := decompress_rgb8a1_inv hd
    rw [(quirkLoop_first4 hq).1, fillCM_length hmain rgb8a1PixelAt_length]
    ring

/-- C3 counterexample: the claim places the RGBA value of pixel `(x, y)` at
the row-major output index `4 * (x + y * width)`.  The code fills the buffer
in column-major order, so for the 2-by-2 R7G6B5A1 texture `c3Tex` the bytes
at index `4 * (1 + 0 * 2) = 4` hold the decoded word of pixel `(0, 1)`
(blue byte 248), not the all-zero decode of pixel `(1, 0)`. -/
theorem c3_counterexample :
    ¬ (∀ (t : Texture) (buf : List Nat), t.format = TextureFormat.R7G6B5A1 →
      decompress t = some (Except.ok buf) →
      ∀ x y j, x < (TextureProperties.from_texture t).width →
        y < (TextureProperties.from_texture t).height → j < 4 →
        buf[4 * (x + y * (TextureProperties.from_texture t).width) + j]? =
          (r7PixelAt t.data (TextureProperties.from_texture t).height x y).bind
            (fun px => px[j]?)) := by
  intro hcl
  have h := hcl c3Tex c3Buf rfl (by rfl) 1 0 2 (by decide) (by decide) (by decide)
  exact absurd h (by decide)

/-- C3 (amended): every buffer returned by `decompress` has length
`width * height * 4`, and for R7G6B5A1 and ARGB4 textures accepted with data
length `2 * width * height` (below the `u32` wrap) the 4 bytes at the
column-major index `4 * (y + x * height)` — not the claimed row-major
`4 * (x + y * width)` — hold the RGBA value decoded from input pixel
`(x, y)`. -/
theorem c3_amended :
    (∀ (t : Texture) (buf : List Nat), decompress t = some (Except.ok buf) →
      buf.length = 4 * ((TextureProperties.from_texture t).width *
        (TextureProperties.from_texture t).height)) ∧
    (∀ t : Texture, t.format = TextureFormat.R7G6B5A1 →
      t.data.length = 2 * ((TextureProperties.from_texture t).width *
        (TextureProperties.from_texture t).height) →
      2 * ((TextureProperties.from_texture t).width *
        (TextureProperties.from_texture t).height) < 4294967296 →
      ∃ buf, decompress t = some (Except.ok buf) ∧
        ∀ x y j, x < (TextureProperties.from_texture t).width →
          y < (TextureProperties.from_texture t).height → j < 4 →
          buf[4 * (y + x * (TextureProperties.from_texture t).height) + j]? =
            (r7PixelAt t.data (TextureProperties.from_texture t).height x y).bind
              (fun px => px[j]?)) ∧
    (∀ t : Texture, t.format = TextureFormat.ARGB4 →
      t.data.length = 2 * ((TextureProperties.from_texture t).width *
        (TextureProperties.from_texture t).height) →
      2 * ((TextureProperties.from_texture t).width *
        (TextureProperties.from_texture t).height) < 4294967296 →
      ∃ buf, decompress t = some (Except.ok buf) ∧
        ∀ x y j, x < (TextureProperties.from_texture t).width →
          y < (TextureProperties.from_texture t).height → j < 4 →
          buf[4 * (y + x * (TextureProperties.from_texture t).height) + j]? =
            (argb4PixelAt t.data (TextureProperties.from_texture t).height x y).bind
              (fun px => px[j]?)) := by
  refine ⟨fun t buf h => decompress_ok_length h, ?_, ?_⟩
  · intro t hf hlen hsmall
    have hacc := accepted_of_2bpp (Or.inl hf) hlen hsmall
    obtain ⟨buf, hbuf, hblen, hpos⟩ := r7_fill_ok hlen
    refine ⟨buf, (decompress_eq_ok hacc).1 hf hbuf, ?_⟩
    intro x y j hx hy hj
    obtain ⟨lo, hi, hlo, hhi, hget⟩ := hpos x y hx hy
    have hr : r7PixelAt t.data (TextureProperties.from_texture t).height x y =
        some (r7Pixel (lo ||| (hi <<< 8))) := by
      unfold r7PixelAt
      rw [hlo, hhi]
    rw [hr]
    exact hget j hj
  · intro t hf hlen hsmall
    have hacc := accepted_of_2bpp (Or.inr hf) hlen hsmall
    obtain ⟨buf, hbuf, hblen, hpos⟩ := argb4_fill_ok hlen
    refine ⟨buf, (decompress_eq_ok hacc).2.1 hf hbuf, ?_⟩
    intro x y j hx hy hj
    obtain ⟨lo, hi, hlo, hhi, hget⟩ := hpos x y hx hy
    have hr : argb4PixelAt t.data (TextureProperties.from_texture t).height x y =
        some (argb4Pixel (lo ||| (hi <<< 8))) := by
      unfold argb4PixelAt
      rw [hlo, hhi]
    rw [hr]
    exact hget j hj

/-- C3 witness: the amended theorem applied at the concrete 1-by-1 R7G6B5A1
texture `tex1x1R7` returns a buffer. -/
theorem c3_witness : ∃ buf, decompress tex1x1R7 = some (Except.ok buf) := by
  obtain ⟨buf, hb, _⟩ := c3_amended.2.1 tex1x1R7 rfl (by decide) (by decide)
  exact ⟨buf, hb⟩

/-- C2 (amended): `TextureProperties::from_texture` is total in the model
(release semantics: wrapping subtraction and masked shifts — an excessive
shift yields a masked-shift value such as width `2^31` for `size_1 = 9`, not
0), and for `size_1 ≤ 8`, whenever the data length equals the derived
`width*height*stride`, `decompress` completes and returns a buffer for
R7G6B5A1 and ARGB4 textures, and for RGB8A1 textures provided additionally
that the height is at least 2 or the data length is at most 1 (with height 1
and at least 2 data bytes the quirk pass indexes out of bounds and panics,
as the counterexample shows). -/
theorem c2_amended (t : Texture) (h8 : t.size_1 ≤ 8)
    (hlen : t.data.length = (TextureProperties.from_texture t).data_length) :
    ((t.format = TextureFormat.R7G6B5A1 ∨ t.format = TextureFormat.ARGB4) →
      ∃ buf, decompress t = some (Except.ok buf)) ∧
    (t.format = TextureFormat.RGB8A1 →
      2 ≤ (TextureProperties.from_texture t).height ∨ t.data.length ≤ 1 →
      ∃ buf, decompress t = some (Except.ok buf)) := by
  obtain ⟨hwle, hhle⟩ := props_of_small h8
  have hwh : (TextureProperties.from_texture t).width *
      (TextureProperties.from_texture t).height ≤ 65536 := Nat.mul_le_mul hwle hhle
  constructor
  · intro hf
    have hstride := (stride_of_fmt t).1 hf
    have hlt : (TextureProperties.from_texture t).width *
        (TextureProperties.from_texture t).height *
        (TextureProperties.from_texture t).stride < 4294967296 := by
      rw [hstride]
      omega
    have hlen2 : t.data.length =
        2 * ((TextureProperties.from_texture t).width *
          (TextureProperties.from_texture t).height) := by
      rw [hlen, data_length_eq hlt (by rw [hstride]; omega), hstride]
      ring
    rcases hf with hf | hf
    · obtain ⟨buf, hbuf, _, _⟩ := r7_fill_ok hlen2
      exact ⟨buf, (decompress_eq_ok hlen).1 hf hbuf⟩
    · obtain ⟨buf, hbuf, _, _⟩ := argb4_fill_ok hlen2
      exact ⟨buf, (decompress_eq_ok hlen).2.1 hf hbuf⟩
  · intro hf hcond
    have hstride := (stride_of_fmt t).2 hf
    have hlt : (TextureProperties.from_texture t).width *
        (TextureProperties.from_texture t).height *
        (TextureProperties.from_texture t).stride < 4294967296 := by
      rw [hstride]
      omega
    have hlen2 : t.data.length =
        (TextureProperties.from_texture t).width *
          (TextureProperties.from_texture t).height := by
      rw [hlen, data_length_eq hlt (by rw [hstride]; omega), hstride, Nat.mul_one]
    obtain ⟨main, hmain, hmlen, _⟩ := rgb8a1_fill_ok t.brightness t.rgb_0 t.rgb_1 hlen2
    have hqs : ∃ buf2, quirkLoop (TextureProperties.from_texture t) main
        (List.range' 1 (min t.data.length 3 - 1)) = some buf2 := by
      by_cases hl1 : t.data.length ≤ 1
      · refine ⟨main, ?_⟩
        rw [show min t.data.length 3 - 1 = 0 from by omega]
        rfl
      · have hh2 : 2 ≤ (TextureProperties.from_texture t).height := by
          rcases hcond with hc | hc
          · exact hc
          · omega
        have hw0 : (TextureProperties.from_texture t).width ≠ 0 := by
          intro hw
          rw [hw, Nat.zero_mul] at hlen2
          omega
        have hh0 : (TextureProperties.from_texture t).height ≠ 0 := by omega
        have hd1 : 1 / (TextureProperties.from_texture t).height = 0 :=
          Nat.div_eq_of_lt (by omega)
        have hm1 : 1 % (TextureProperties.from_texture t).width ≤ 1 := Nat.mod_le 1 _
        have hwhlen : (TextureProperties.from_texture t).height *
            (TextureProperties.from_texture t).width = t.data.length := by
          rw [hlen2]
          ring
        have hb1 : 4 * (1 % (TextureProperties.from_texture t).width +
            1 / (TextureProperties.from_texture t).height *
              (TextureProperties.from_texture t).width) + 3 < main.length := by
          rw [hmlen, hd1]
          simp only [Nat.zero_mul, Nat.add_zero]
          omega
        by_cases hl2 : t.data.length = 2
        · rw [show min t.data.length 3 - 1 = 1 from by omega]
          obtain ⟨b1, hb1some, _⟩ := quirkBody_some hw0 hh0 hb1
          refine ⟨b1, ?_⟩
          rw [show List.range' 1 1 = [1] from rfl]
          unfold quirkLoop
          rw [hb1some]
          rfl
        · have hl3 : 3 ≤ t.data.length := by omega
          rw [show min t.data.length 3 - 1 = 2 from by omega]
          obtain ⟨b1, hb1some, hb1len⟩ := quirkBody_some hw0 hh0 hb1
          have hk2 : 2 % (TextureProperties.from_texture t).width +
              2 / (TextureProperties.from_texture t).height *
                (TextureProperties.from_texture t).width <
              (TextureProperties.from_texture t).height *
                (TextureProperties.from_texture t).width := by
            have h2w : 2 % (TextureProperties.from_texture t).width <
                (TextureProperties.from_texture t).width := Nat.mod_lt _ (by omega)
            by_cases hh3 : 3 ≤ (TextureProperties.from_texture t).height
            · rw [Nat.div_eq_of_lt (by omega), Nat.zero_mul, Nat.add_zero]
              have hwle2 : (TextureProperties.from_texture t).width ≤
                  (TextureProperties.from_texture t).height *
                    (TextureProperties.from_texture t).width := by
                calc (TextureProperties.from_texture t).width
                    = 1 * (TextureProperties.from_texture t).width := by rw [Nat.one_mul]
                  _ ≤ (TextureProperties.from_texture t).height *
                      (TextureProperties.from_texture t).width :=
                    Nat.mul_le_mul_right _ (by omega)
              omega
            · have hh2e : (TextureProperties.from_texture t).height = 2 := by omega
              rw [hh2e, show (2 : Nat) / 2 = 1 from rfl, Nat.one_mul]
              omega
          have hb2 : 4 * (2 % (TextureProperties.from_texture t).width +
              2 / (TextureProperties.from_texture t).height *
                (TextureProperties.from_texture t).width) + 3 < b1.length := by
            rw [hb1len, hmlen]
            omega
          obtain ⟨b2, hb2some, _⟩ := quirkBody_some hw0 hh0 hb2
          refine ⟨b2, ?_⟩
          rw [show List.range' 1 2 = [1, 2] from rfl]
          unfold quirkLoop
          rw [hb1some]
          show quirkLoop (TextureProperties.from_texture t) b1 [2] = some b2
          unfold quirkLoop
          rw [hb2some]
          rfl
    obtain ⟨buf2, hq⟩ := hqs
    have hdec : decompress_rgb8a1 t.data (TextureProperties.from_texture t)
        t.brightness t.rgb_0 t.rgb_1 = some buf2 := by
      unfold decompress_rgb8a1
      rw [hmain]
      exact hq
    exact ⟨buf2, (decompress_eq_ok hlen).2.2 hf hdec⟩

/-- C2 witness: the amended theorem applied at the concrete 1-by-1 ARGB4
texture `tex1x1A4`. -/
theorem c2_witness : ∃ buf, decompress tex1x1A4 = some (Except.ok buf) :=
  (c2_amended tex1x1A4 (by decide) (by decide)).1 (Or.inr rfl)
